import Mathlib

/-!
Verification of the Dylan format test code (fmtdytst.c) against its design
specification.

The C source is shallowly embedded: machine words (mps_word_t) are natural
numbers, with reduction modulo 2 ^ 64 made explicit at the points where the
C code truncates; raw memory extents are lists of words; the process-global
wrapper registry (the static pointers ww and tvw) is explicit state threaded
through the operations; the pseudo-random source rnd() and the host
allocator (malloc, MPS reserve/commit) are inputs supplied by the caller of
each embedded operation.
-/

/-- sizeof(mps_word_t) on the modelled 64-bit platform, in bytes. -/
def wordSize : Nat := 8

/-- MPS_WORD_WIDTH: number of bits in a word. -/
def wordWidth : Nat := 64

/-- One more than the largest representable word value. -/
def wordMod : Nat := 2 ^ wordWidth

/-- ALIGN from fmtdytst.h: the word alignment constant, sizeof(mps_word_t). -/
def ALIGN : Nat := wordSize

/-- The C expression ~(mps_word_t)3: all word bits set except the low two.
As a natural number below 2 ^ 64 this is 2 ^ 64 - 4. -/
def NOT3 : Nat := wordMod - 4

/-- Wrapper field index WW (self reference), from fmtdy.h. -/
def WW : Nat := 0

/-- Wrapper field index WC (class reference). -/
def WC : Nat := 1

/-- Wrapper field index WM (subtype mask). -/
def WM : Nat := 2

/-- Wrapper field index WF (fixed part format). -/
def WF : Nat := 3

/-- Wrapper field index WV (version word). -/
def WV : Nat := 4

/-- Wrapper field index WS (shape / pattern count). -/
def WS : Nat := 5

/-- Wrapper field index WP (pattern 0, pad marker). -/
def WP : Nat := 6

/-- BASIC_WRAPPER_SIZE from fmtdy.h: words in a wrapper without patterns. -/
def BASIC_WRAPPER_SIZE : Nat := 6

/-- Result codes of the embedded operations.  Only the two codes produced
by this file's source functions are modelled: MPS_RES_OK and the
out-of-memory / allocation-failure code MPS_RES_MEMORY. -/
inductive MpsRes
  | OK
  | MEMORY
deriving DecidableEq

/-- dylan_make_WV from fmtdytst.c: packs the wrapper version word
VERSION- ... VB------ reserved ES---VF- .
The C asserts that each field fits its bit width; those asserts become
hypotheses of the theorems about this function. -/
def dylan_make_WV (version vb es vf : Nat) : Nat :=
  (version <<< (wordWidth - 8)) ||| (vb <<< 16) ||| (es <<< 3) ||| vf

/-- The registry state held in the static variables of fmtdytst.c:
ww is the wrapper-wrapper pointer (none models NULL), tvw the
traceable-vector wrapper pointer. -/
structure WrapperState where
  ww : Option Nat
  tvw : Nat
deriving DecidableEq

/-- dylan_make_wrappers from fmtdytst.c.  The two malloc calls are modelled
by the inputs m1 and m2 (none models a NULL return).  Note the translated
control flow of the failure path: after tvw's malloc fails the C code calls
free(ww) and returns, but the static variable ww still holds the address of
the freed block, so the returned state records ww = some a1. -/
def dylan_make_wrappers (s : WrapperState) (m1 m2 : Option Nat) :
    MpsRes × WrapperState :=
  match s.ww with
  | some _ => (MpsRes.OK, s)
  | none =>
    match m1 with
    | none => (MpsRes.MEMORY, s)
    | some a1 =>
      match m2 with
      | none => (MpsRes.MEMORY, { ww := some a1, tvw := s.tvw })
      | some a2 => (MpsRes.OK, { ww := some a1, tvw := a2 })

/-- The seven words the first call of dylan_make_wrappers stores into the
wrapper-wrapper block at address a, in field order WW WC WM WF WV WS WP. -/
def wwContents (a : Nat) : List Nat :=
  [a, a, (1 <<< 2) ||| 1, ((WS - 1) <<< 2) ||| 2, dylan_make_WV 2 0 0 0,
   (1 <<< 2) ||| 1, 1]

/-- The six words stored into the traceable-vector wrapper block, given the
wrapper-wrapper address a. -/
def tvwContents (a : Nat) : List Nat :=
  [a, a, (1 <<< 2) ||| 1, 0, dylan_make_WV 2 0 0 2, 1]

/-- What dylan_init writes into the raw memory extent: either a vector
object (the list of words written starting at the extent's base) or a pad
covering the whole extent, whose construction fmtdytst.c delegates to the
external dylan_pad. -/
inductive InitEffect
  | vector (words : List Nat)
  | pad (size : Nat)
deriving DecidableEq

/-- The slot value chosen by dylan_init's fill loop from one random draw r:
a random dylan-int (r & ~3) | 1 when the pool is empty or r is odd, else
the pool element at index (r >> 1) % nr_refs. -/
def dylan_init_slot (refs : List Nat) (r : Nat) : Nat :=
  if refs.length = 0 ∨ r &&& 1 ≠ 0 then (r &&& NOT3) ||| 1
  else refs.getD ((r >>> 1) % refs.length) 0

/-- The memory effect of dylan_init once the wrappers exist, given the
registered traceable-vector wrapper address.  rs i is the value of the
rnd() call made for slot i; rnd returns a word, hence the reduction
modulo 2 ^ 64.  For a size_t size the length word (t << 2) | 1 cannot
exceed 2 ^ 63, so no truncation of it occurs. -/
def dylan_init_body (tvwAddr size : Nat) (refs : List Nat) (rs : Nat → Nat) :
    InitEffect :=
  if wordSize * 2 ≤ size then
    InitEffect.vector
      (tvwAddr :: (((size / wordSize - 2) <<< 2) ||| 1) ::
        (List.range (size / wordSize - 2)).map
          (fun i => dylan_init_slot refs (rs i % wordMod)))
  else InitEffect.pad size

/-- dylan_init from fmtdytst.c: make the wrappers, then initialise the raw
memory to a dylan-vector (or a pad when the extent is under two words).
The C asserts (size & (ALIGN-1)) == 0; that becomes a theorem hypothesis.
Returns the result code, the registry state after the call, and the memory
effect (none when wrapper creation failed and nothing was written). -/
def dylan_init (s : WrapperState) (m1 m2 : Option Nat) (size : Nat)
    (refs : List Nat) (rs : Nat → Nat) :
    MpsRes × WrapperState × Option InitEffect :=
  match dylan_make_wrappers s m1 m2 with
  | (MpsRes.OK, s2) =>
    (MpsRes.OK, s2, some (dylan_init_body s2.tvw size refs rs))
  | (res, s2) => (res, s2, none)

/-- DYLAN_INT from fmtdytst.h, modelled from the spec's tagging convention:
an immediate integer is the value shifted left two places with tag bits 01,
truncated to a word. -/
def DYLAN_INT (x : Nat) : Nat := ((x <<< 2) ||| 1) % wordMod

/-- The words make_dylan_vector's fill loop stores at the reserved address:
the vector wrapper, the tagged length (slots << 2) | 1, and slots copies of
DYLAN_INT(0). -/
def vector_fill (tvwAddr slots : Nat) : List Nat :=
  tvwAddr :: ((slots <<< 2) ||| 1) % wordMod :: List.replicate slots (DYLAN_INT 0)

/-- The reserve / fill / commit loop of make_dylan_vector.  Each element of
ap is one allocation attempt: the reservation outcome (none models a failed
MPS_RESERVE_BLOCK) and whether mps_commit then succeeds.  The result is
none when the modelled attempt list is exhausted with the loop still
running, some (res, out) when the C function returns. -/
def make_dylan_vector_loop (tvwAddr slots : Nat) :
    List (Option Nat × Bool) → Option (MpsRes × Option (Nat × List Nat))
  | [] => none
  | (none, _) :: _ => some (MpsRes.MEMORY, none)
  | (some addr, ok) :: rest =>
    if ok then some (MpsRes.OK, some (addr, vector_fill tvwAddr slots))
    else make_dylan_vector_loop tvwAddr slots rest

/-- make_dylan_vector from fmtdytst.c: make the wrappers, then run the
reserve / fill / commit loop for a vector of the requested slot count
(byte size (slots + 2) * wordSize).  On success the out component carries
the committed address and the words written there. -/
def make_dylan_vector (s : WrapperState) (m1 m2 : Option Nat) (slots : Nat)
    (ap : List (Option Nat × Bool)) :
    Option (MpsRes × WrapperState × Option (Nat × List Nat)) :=
  match dylan_make_wrappers s m1 m2 with
  | (MpsRes.OK, s2) =>
    match make_dylan_vector_loop s2.tvw slots ap with
    | none => none
    | some (res, out) => some (res, s2, out)
  | (res, s2) => some (res, s2, none)

/-- dylan_write from fmtdytst.c.  obj is the object's words, r1 the first
rnd() draw (value choice), r2 the second (slot index).  The result is the
object's words after the call, or none on the path where the C code
evaluates refs[(r >> 1) % nr_refs] with nr_refs = 0, a division by zero:
with an empty pool the element lookup is modelled by an out-of-range list
access. -/
def dylan_write (tvwAddr : Nat) (obj refs : List Nat) (r1 r2 : Nat) :
    Option (List Nat) :=
  if obj.getD 0 0 = tvwAddr ∧ 0 < obj.getD 1 0 >>> 2 then
    let t := obj.getD 1 0 >>> 2
    let r := r1 % wordMod
    let i := 2 + (r2 % wordMod) % t
    if r &&& 1 ≠ 0 then some (obj.set i ((r &&& NOT3) ||| 1))
    else
      match refs[(r >>> 1) % refs.length]? with
      | some v => some (obj.set i v)
      | none => none
  else some obj

/-- dylan_mutate from fmtdytst.c: when the object is a non-empty vector,
swap the slots at two random indices (r1 and r2 are the two rnd() draws);
otherwise leave the object alone. -/
def dylan_mutate (tvwAddr : Nat) (obj : List Nat) (r1 r2 : Nat) : List Nat :=
  if obj.getD 0 0 = tvwAddr then
    if 0 < obj.getD 1 0 >>> 2 then
      let t := obj.getD 1 0 >>> 2
      let i := 2 + (r1 % wordMod) % t
      let j := 2 + (r2 % wordMod) % t
      (obj.set i (obj.getD j 0)).set j (obj.getD i 0)
    else obj
  else obj

/-- dylan_read from fmtdytst.c: when the object is a non-empty vector,
return the word in a random slot; otherwise return the object's own
address.  The C function performs no store, so the embedding returns only
the read value. -/
def dylan_read (tvwAddr addr : Nat) (obj : List Nat) (r : Nat) : Nat :=
  if obj.getD 0 0 = tvwAddr then
    if 0 < obj.getD 1 0 >>> 2 then
      obj.getD (2 + (r % wordMod) % (obj.getD 1 0 >>> 2)) 0
    else addr
  else addr

/-- Modelled from the spec: dylan_wrapper_check lives in fmtdy.c, which is
not among the given sources.  Per spec section 4.6 the validator fails
unless the word at the object's address is one of the two registered
wrapper identities. -/
def dylan_wrapper_check (wwAddr tvwAddr w : Nat) : Bool :=
  decide (w = wwAddr) || decide (w = tvwAddr)

/-- dylan_check from fmtdytst.c: the conjunction of its three assertions on
an object at address addr whose first word is hdr — the address is
non-null, word-aligned, and the first word passes the wrapper check. -/
def dylan_check (wwAddr tvwAddr addr hdr : Nat) : Bool :=
  decide (addr ≠ 0) && decide (addr % ALIGN = 0) &&
    dylan_wrapper_check wwAddr tvwAddr hdr

/-- Spec-modelled field extraction from a packed version word: the version
lives in the high byte. -/
def wv_version (w : Nat) : Nat := (w >>> (wordWidth - 8)) &&& 255

/-- Spec-modelled field extraction: the variable-part flags live at bit 16. -/
def wv_vb (w : Nat) : Nat := (w >>> 16) &&& 255

/-- Spec-modelled field extraction: the exact-size field lives at bit 3. -/
def wv_es (w : Nat) : Nat := (w >>> 3) &&& 31

/-- Spec-modelled field extraction: the variable-tag is the low 3 bits. -/
def wv_vf (w : Nat) : Nat := w &&& 7

/-! ## Helper lemmas -/

/-- Shifting left by i and or-ing in a value below 2 ^ i is addition:
the bit ranges are disjoint. -/
theorem shiftLeft_lor_eq_add (a b i : Nat) (hb : b < 2 ^ i) :
    (a <<< i) ||| b = a * 2 ^ i + b := by
  rw [Nat.shiftLeft_eq, Nat.mul_comm a (2 ^ i), ← Nat.mul_add_lt_is_or hb]

/-- The additive decomposition of the packed version word under the bit
width bounds asserted by the C code. -/
theorem dylan_make_WV_eq (version vb es vf : Nat)
    (h1 : version < 2 ^ 8) (h2 : vb < 2 ^ 8) (h3 : es < 2 ^ 5)
    (h4 : vf < 2 ^ 3) :
    dylan_make_WV version vb es vf =
      version * 2 ^ 56 + vb * 2 ^ 16 + es * 2 ^ 3 + vf := by
  unfold dylan_make_WV wordWidth
  rw [Nat.or_assoc, Nat.or_assoc]
  rw [shiftLeft_lor_eq_add es vf 3 h4]
  rw [shiftLeft_lor_eq_add vb (es * 2 ^ 3 + vf) 16 (by omega)]
  rw [shiftLeft_lor_eq_add version (vb * 2 ^ 16 + (es * 2 ^ 3 + vf)) (64 - 8)
        (by omega)]
  omega

/-- The low two bits of the mask ~3 applied to any word are clear. -/
theorem masked_mod_four (r : Nat) : (r &&& NOT3) % 4 = 0 := by
  have h3 : (r &&& NOT3) &&& 3 = 0 := by
    rw [Nat.and_assoc]
    have h0 : NOT3 &&& 3 = 0 := by decide
    rw [h0, Nat.and_zero]
  have h4 := Nat.and_pow_two_sub_one_eq_mod (r &&& NOT3) 2
  norm_num at h4
  omega

/-- A masked random int (r & ~3) | 1 is untouched above bit 1: the or with
the cleared low bits is addition of 1. -/
theorem masked_lor_one (r : Nat) : (r &&& NOT3) ||| 1 = (r &&& NOT3) + 1 := by
  have hz := masked_mod_four r
  have hq : r &&& NOT3 = ((r &&& NOT3) / 4) <<< 2 := by
    rw [Nat.shiftLeft_eq]
    omega
  rw [hq, shiftLeft_lor_eq_add _ 1 2 (by norm_num), Nat.shiftLeft_eq]

/-- The low two bits of a masked random int are the immediate tag 01. -/
theorem masked_lor_one_mod_four (r : Nat) : ((r &&& NOT3) ||| 1) % 4 = 1 := by
  rw [masked_lor_one]
  have hz := masked_mod_four r
  omega

/-- Replacing the element at index k of a list and re-consing the old
element in front permutes consing the new element in front. -/
theorem getD_cons_set_perm (xs : List Nat) (k x : Nat) (hk : k < xs.length) :
    List.Perm (xs.getD k 0 :: xs.set k x) (x :: xs) := by
  induction xs generalizing k with
  | nil => simp at hk
  | cons h t ih =>
    cases k with
    | zero => simpa using List.Perm.swap x h t
    | succ k =>
      simp only [List.getD_cons_succ, List.set_cons_succ]
      have step1 : List.Perm (t.getD k 0 :: h :: t.set k x)
          (h :: t.getD k 0 :: t.set k x) := List.Perm.swap _ _ _
      have step2 : List.Perm (h :: t.getD k 0 :: t.set k x) (h :: x :: t) :=
        List.Perm.cons h (ih k (by simpa using hk))
      have step3 : List.Perm (h :: x :: t) (x :: h :: t) := List.Perm.swap _ _ _
      exact step1.trans (step2.trans step3)

/-- Exchanging the elements at two indices of a list is a permutation. -/
theorem set_set_swap_perm (l : List Nat) (i j : Nat)
    (hi : i < l.length) (hj : j < l.length) :
    List.Perm ((l.set i (l.getD j 0)).set j (l.getD i 0)) l := by
  induction l generalizing i j with
  | nil => simp at hi
  | cons h t ih =>
    cases i with
    | zero =>
      cases j with
      | zero => simp
      | succ j =>
        simp only [List.getD_cons_succ, List.getD_cons_zero,
          List.set_cons_zero, List.set_cons_succ]
        exact getD_cons_set_perm t j h (by simpa using hj)
    | succ i =>
      cases j with
      | zero =>
        simp only [List.getD_cons_succ, List.getD_cons_zero,
          List.set_cons_succ, List.set_cons_zero]
        exact getD_cons_set_perm t i h (by simpa using hi)
      | succ j =>
        simp only [List.getD_cons_succ, List.set_cons_succ]
        exact List.Perm.cons h (ih i j (by simpa using hi) (by simpa using hj))

/-! ## Claim theorems -/

/-- Claim C7: for all field values within their bit widths, dylan_make_WV
places the version in the high byte, the flags at bit 16, the exact-size
field at bit 3 and the variable-tag in the low 3 bits, and extracting each
field from the packed word recovers the original values exactly. -/
theorem dylan_make_WV_round_trip (version vb es vf : Nat)
    (h1 : version < 2 ^ 8) (h2 : vb < 2 ^ 8) (h3 : es < 2 ^ 5)
    (h4 : vf < 2 ^ 3) :
    dylan_make_WV version vb es vf =
      version * 2 ^ 56 + vb * 2 ^ 16 + es * 2 ^ 3 + vf ∧
    wv_version (dylan_make_WV version vb es vf) = version ∧
    wv_vb (dylan_make_WV version vb es vf) = vb ∧
    wv_es (dylan_make_WV version vb es vf) = es ∧
    wv_vf (dylan_make_WV version vb es vf) = vf := by
  have heq := dylan_make_WV_eq version vb es vf h1 h2 h3 h4
  have m255 : (255 : Nat) = 2 ^ 8 - 1 := by norm_num
  have m31 : (31 : Nat) = 2 ^ 5 - 1 := by norm_num
  have m7 : (7 : Nat) = 2 ^ 3 - 1 := by norm_num
  refine ⟨heq, ?_, ?_, ?_, ?_⟩
  · unfold wv_version wordWidth
    rw [heq, Nat.shiftRight_eq_div_pow, m255, Nat.and_pow_two_sub_one_eq_mod]
    omega
  · unfold wv_vb
    rw [heq, Nat.shiftRight_eq_div_pow, m255, Nat.and_pow_two_sub_one_eq_mod]
    omega
  · unfold wv_es
    rw [heq, Nat.shiftRight_eq_div_pow, m31, Nat.and_pow_two_sub_one_eq_mod]
    omega
  · unfold wv_vf
    rw [heq, m7, Nat.and_pow_two_sub_one_eq_mod]
    omega

/-- Witness for C7 at the field values of the traceable-vector wrapper's
version word. -/
theorem dylan_make_WV_round_trip_wit :
    dylan_make_WV 2 0 0 2 = 2 * 2 ^ 56 + 0 * 2 ^ 16 + 0 * 2 ^ 3 + 2 ∧
    wv_version (dylan_make_WV 2 0 0 2) = 2 ∧
    wv_vb (dylan_make_WV 2 0 0 2) = 0 ∧
    wv_es (dylan_make_WV 2 0 0 2) = 0 ∧
    wv_vf (dylan_make_WV 2 0 0 2) = 2 :=
  dylan_make_WV_round_trip 2 0 0 2 (by norm_num) (by norm_num) (by norm_num)
    (by norm_num)

/-- Any successful exit of the reserve / fill / commit loop carries exactly
the fill words. -/
theorem make_dylan_vector_loop_ok (tvwAddr slots : Nat)
    (ap : List (Option Nat × Bool)) (res : MpsRes) (addr : Nat)
    (ws : List Nat)
    (h : make_dylan_vector_loop tvwAddr slots ap = some (res, some (addr, ws))) :
    ws = vector_fill tvwAddr slots := by
  induction ap with
  | nil => simp [make_dylan_vector_loop] at h
  | cons hd rest ih =>
    obtain ⟨r0, c0⟩ := hd
    cases r0 with
    | none => simp [make_dylan_vector_loop] at h
    | some a =>
      cases c0 with
      | true =>
        simp [make_dylan_vector_loop] at h
        exact h.2.2.symm
      | false =>
        simp [make_dylan_vector_loop] at h
        exact ih h

/-- Claim C5: a successful make_dylan_vector returns an object whose word 0
is the registered vector wrapper, whose word 1 shifted right by two decodes
to the requested slot count, and whose slots each hold DYLAN_INT(0).  The
slot-count bound keeps the tagged length word within a size_t. -/
theorem make_dylan_vector_zero_fill (s : WrapperState) (m1 m2 : Option Nat)
    (slots : Nat) (ap : List (Option Nat × Bool)) (s2 : WrapperState)
    (addr : Nat) (ws : List Nat) (hs : slots < 2 ^ (wordWidth - 2))
    (h : make_dylan_vector s m1 m2 slots ap =
      some (MpsRes.OK, s2, some (addr, ws))) :
    ws.getD 0 0 = s2.tvw ∧ ws.getD 1 0 >>> 2 = slots ∧
    ws.length = slots + 2 ∧
    ∀ i, i < slots → ws.getD (2 + i) 0 = DYLAN_INT 0 := by
  have hws : ws = vector_fill s2.tvw slots := by
    unfold make_dylan_vector at h
    rcases hw : dylan_make_wrappers s m1 m2 with ⟨res1, s1⟩
    rw [hw] at h
    cases res1 with
    | MEMORY => simp at h
    | OK =>
      dsimp only at h
      rcases hl : make_dylan_vector_loop s1.tvw slots ap with _ | ⟨res2, out⟩
      · rw [hl] at h
        simp at h
      · rw [hl] at h
        simp at h
        obtain ⟨hres2, hs12, hout⟩ := h
        subst hs12
        subst hres2
        subst hout
        exact make_dylan_vector_loop_ok s1.tvw slots ap MpsRes.OK addr ws hl
  subst hws
  have hlen : ((slots <<< 2) ||| 1) % wordMod = slots * 4 + 1 := by
    rw [shiftLeft_lor_eq_add slots 1 2 (by norm_num)]
    unfold wordMod wordWidth
    unfold wordWidth at hs
    apply Nat.mod_eq_of_lt
    omega
  refine ⟨rfl, ?_, ?_, ?_⟩
  · show (((slots <<< 2) ||| 1) % wordMod) >>> 2 = slots
    rw [hlen, Nat.shiftRight_eq_div_pow]
    omega
  · simp [vector_fill]
  · intro i hi
    show (vector_fill s2.tvw slots).getD (2 + i) 0 = DYLAN_INT 0
    rw [show 2 + i = (i + 1) + 1 by omega]
    simp only [vector_fill, List.getD_cons_succ]
    simp [List.getD_eq_getElem?_getD, List.getElem?_replicate, hi]

/-- Witness for C5: three slots, pre-built registry, an allocator that
reserves address 64 and commits on the first attempt. -/
theorem make_dylan_vector_zero_fill_wit :
    ([2000, 13, 1, 1, 1] : List Nat).getD 0 0 =
      (WrapperState.mk (some 1000) 2000).tvw ∧
    ([2000, 13, 1, 1, 1] : List Nat).getD 1 0 >>> 2 = 3 ∧
    ([2000, 13, 1, 1, 1] : List Nat).length = 3 + 2 ∧
    ∀ i, i < 3 → ([2000, 13, 1, 1, 1] : List Nat).getD (2 + i) 0 =
      DYLAN_INT 0 :=
  make_dylan_vector_zero_fill (WrapperState.mk (some 1000) 2000) none none 3
    [(some 64, true)] (WrapperState.mk (some 1000) 2000) 64 [2000, 13, 1, 1, 1]
    (by decide) (by decide)

/-- Inversion for dylan_init producing a vector: wrapper creation
succeeded, the extent held at least two words, and the words written are
the vector wrapper, the tagged length, and the random slot fill. -/
theorem dylan_init_vector_inv (s : WrapperState) (m1 m2 : Option Nat)
    (size : Nat) (refs : List Nat) (rs : Nat → Nat) (res : MpsRes)
    (s2 : WrapperState) (ws : List Nat)
    (h : dylan_init s m1 m2 size refs rs =
      (res, s2, some (InitEffect.vector ws))) :
    res = MpsRes.OK ∧ wordSize * 2 ≤ size ∧
    ws = s2.tvw :: (((size / wordSize - 2) <<< 2) ||| 1) ::
      (List.range (size / wordSize - 2)).map
        (fun i => dylan_init_slot refs (rs i % wordMod)) := by
  unfold dylan_init at h
  rcases hw : dylan_make_wrappers s m1 m2 with ⟨res1, s1⟩
  rw [hw] at h
  cases res1 with
  | MEMORY => simp at h
  | OK =>
    dsimp only at h
    obtain ⟨hres, hs12, hbody⟩ := by simpa using h
    subst hs12
    refine ⟨hres.symm, ?_, ?_⟩
    · by_contra hsize
      unfold dylan_init_body at hbody
      rw [if_neg hsize] at hbody
      simp at hbody
    · by_cases hsize : wordSize * 2 ≤ size
      · unfold dylan_init_body at hbody
        rw [if_pos hsize] at hbody
        simpa using hbody.symm
      · unfold dylan_init_body at hbody
        rw [if_neg hsize] at hbody
        simp at hbody

/-- Inversion for a successful make_dylan_vector: the committed words are
the vector fill for the registered wrapper. -/
theorem make_dylan_vector_inv (s : WrapperState) (m1 m2 : Option Nat)
    (slots : Nat) (ap : List (Option Nat × Bool)) (res : MpsRes)
    (s2 : WrapperState) (addr : Nat) (ws : List Nat)
    (h : make_dylan_vector s m1 m2 slots ap =
      some (res, s2, some (addr, ws))) :
    ws = vector_fill s2.tvw slots := by
  unfold make_dylan_vector at h
  rcases hw : dylan_make_wrappers s m1 m2 with ⟨res1, s1⟩
  rw [hw] at h
  cases res1 with
  | MEMORY => simp at h
  | OK =>
    dsimp only at h
    rcases hl : make_dylan_vector_loop s1.tvw slots ap with _ | ⟨res2, out⟩
    · rw [hl] at h
      simp at h
    · rw [hl] at h
      simp at h
      obtain ⟨hres2, hs12, hout⟩ := h
      subst hs12
      subst hres2
      subst hout
      exact make_dylan_vector_loop_ok s1.tvw slots ap _ addr ws hl

/-- Claim C1: any object produced by dylan_init (with at least two words of
aligned raw memory) or by make_dylan_vector passes dylan_check — its
address is non-null and word-aligned, and its first word is a recognized
wrapper.  The address hypotheses restate the spec's addressing invariant,
which the external allocator guarantees for the extents it hands out. -/
theorem dylan_produced_passes_check (s : WrapperState) (m1 m2 : Option Nat)
    (size : Nat) (refs : List Nat) (rs : Nat → Nat) (addr : Nat)
    (res : MpsRes) (s2 : WrapperState) (ws : List Nat) (slots : Nat)
    (ap : List (Option Nat × Bool)) (res2 : MpsRes) (s3 : WrapperState)
    (a2 : Nat) (ws2 : List Nat)
    (hsz : size % ALIGN = 0) (h0 : addr ≠ 0) (hal : addr % ALIGN = 0)
    (hinit : dylan_init s m1 m2 size refs rs =
      (res, s2, some (InitEffect.vector ws)))
    (h02 : a2 ≠ 0) (hal2 : a2 % ALIGN = 0)
    (hmk : make_dylan_vector s m1 m2 slots ap =
      some (res2, s3, some (a2, ws2))) :
    dylan_check (s2.ww.getD 0) s2.tvw addr (ws.getD 0 0) = true ∧
    dylan_check (s3.ww.getD 0) s3.tvw a2 (ws2.getD 0 0) = true := by
  obtain ⟨-, -, hws⟩ :=
    dylan_init_vector_inv s m1 m2 size refs rs res s2 ws hinit
  have hws2 := make_dylan_vector_inv s m1 m2 slots ap res2 s3 a2 ws2 hmk
  subst hws
  subst hws2
  constructor
  · simp [dylan_check, dylan_wrapper_check, h0, hal]
  · simp [dylan_check, dylan_wrapper_check, h02, hal2, vector_fill]

/-- Witness for C1: a 32-byte extent at address 8 initialised with an empty
pool, and a 3-slot built vector committed at address 64, both against a
pre-built registry with wrappers at 1000 and 2000. -/
theorem dylan_produced_passes_check_wit :
    dylan_check ((WrapperState.mk (some 1000) 2000).ww.getD 0)
      (WrapperState.mk (some 1000) 2000).tvw 8
      (([2000, 9, 5, 5] : List Nat).getD 0 0) = true ∧
    dylan_check ((WrapperState.mk (some 1000) 2000).ww.getD 0)
      (WrapperState.mk (some 1000) 2000).tvw 64
      (([2000, 13, 1, 1, 1] : List Nat).getD 0 0) = true :=
  dylan_produced_passes_check (WrapperState.mk (some 1000) 2000) none none
    32 [] (fun _ => 5) 8 MpsRes.OK (WrapperState.mk (some 1000) 2000)
    [2000, 9, 5, 5] 3 [(some 64, true)] MpsRes.OK
    (WrapperState.mk (some 1000) 2000) 64 [2000, 13, 1, 1, 1]
    (by decide) (by decide) (by decide) (by decide) (by decide) (by decide)
    (by decide)

/-- Claim C4: dylan_init on an aligned extent of at least two words with an
empty reference pool fills every one of the size/wordSize - 2 slots with an
immediate-tagged integer — low two bits 01 — so no slot holds a
reference. -/
theorem dylan_init_leaf (s : WrapperState) (m1 m2 : Option Nat) (size : Nat)
    (rs : Nat → Nat) (res : MpsRes) (s2 : WrapperState) (ws : List Nat)
    (hsz : size % ALIGN = 0)
    (h : dylan_init s m1 m2 size [] rs =
      (res, s2, some (InitEffect.vector ws))) :
    ws.length = (size / wordSize - 2) + 2 ∧
    ∀ i, i < size / wordSize - 2 → ws.getD (2 + i) 0 % 4 = 1 := by
  obtain ⟨-, -, hws⟩ := dylan_init_vector_inv s m1 m2 size [] rs res s2 ws h
  subst hws
  constructor
  · simp
  · intro i hi
    rw [show 2 + i = (i + 1) + 1 by omega]
    simp only [List.getD_cons_succ]
    have hmap : ((List.range (size / wordSize - 2)).map
        (fun k => dylan_init_slot [] (rs k % wordMod))).getD i 0 =
        dylan_init_slot [] (rs i % wordMod) := by
      simp [List.getD_eq_getElem?_getD, List.getElem?_map,
        List.getElem?_range, hi]
    rw [hmap]
    unfold dylan_init_slot
    rw [if_pos (by simp)]
    exact masked_lor_one_mod_four _

/-- Witness for C4: a 32-byte extent, empty pool, random source constant 6
(an even draw, whose slot is nevertheless a tagged int because the pool is
empty). -/
theorem dylan_init_leaf_wit :
    ([2000, 9, 5, 5] : List Nat).length = (32 / wordSize - 2) + 2 ∧
    ∀ i, i < 32 / wordSize - 2 →
      ([2000, 9, 5, 5] : List Nat).getD (2 + i) 0 % 4 = 1 :=
  dylan_init_leaf (WrapperState.mk (some 1000) 2000) none none 32
    (fun _ => 5) MpsRes.OK (WrapperState.mk (some 1000) 2000) [2000, 9, 5, 5]
    (by decide) (by decide)

/-- Claim C8: dylan_init on an aligned extent strictly below two words
writes no vector header or slot — it delegates the whole extent to the
external pad constructor — and returns success. -/
theorem dylan_init_undersized (s : WrapperState) (m1 m2 : Option Nat)
    (size : Nat) (refs : List Nat) (rs : Nat → Nat) (s2 : WrapperState)
    (hsz : size % ALIGN = 0) (hlt : size < wordSize * 2)
    (hw : dylan_make_wrappers s m1 m2 = (MpsRes.OK, s2)) :
    dylan_init s m1 m2 size refs rs =
      (MpsRes.OK, s2, some (InitEffect.pad size)) := by
  unfold dylan_init
  rw [hw]
  dsimp only
  unfold dylan_init_body
  rw [if_neg (by omega)]

/-- Witness for C8: a one-word extent is padded. -/
theorem dylan_init_undersized_wit :
    dylan_init (WrapperState.mk (some 1000) 2000) none none 8 [77]
      (fun _ => 5) =
    (MpsRes.OK, WrapperState.mk (some 1000) 2000,
      some (InitEffect.pad 8)) :=
  dylan_init_undersized (WrapperState.mk (some 1000) 2000) none none 8 [77]
    (fun _ => 5) (WrapperState.mk (some 1000) 2000) (by decide) (by decide)
    (by decide)

/-- Claim C3 (code bug, evaluated): on a first call whose second allocation
fails, dylan_make_wrappers reports the memory failure but leaves the static
ww pointer holding the freed block's address rather than NULL, so the
registry is not left unchanged — and the next call then succeeds as a
no-op against the dangling state without ever populating the wrappers. -/
theorem dylan_make_wrappers_partial_failure :
    dylan_make_wrappers (WrapperState.mk none 0) (some 100) none =
      (MpsRes.MEMORY, WrapperState.mk (some 100) 0) ∧
    (WrapperState.mk (some 100) 0).ww ≠ none ∧
    dylan_make_wrappers (WrapperState.mk (some 100) 0) none none =
      (MpsRes.OK, WrapperState.mk (some 100) 0) := by
  refine ⟨rfl, ?_, rfl⟩
  simp

/-- Counterexample to claim C2: a non-empty vector (header 100 = tvw,
tagged length 9, so two slots), empty reference pool, even random draw 2.
The claim says dylan_write then unconditionally writes a masked immediate;
instead the code takes the reference branch and evaluates
refs[(r >> 1) % nr_refs] with nr_refs = 0 — a division by zero, modelled
as the none result: no write happens at all. -/
theorem dylan_write_empty_pool_even_draw :
    dylan_write 100 [100, 9, 7, 7] [] 2 5 = none := by decide

/-- Claim C2 (amended): with an empty reference pool dylan_write writes a
masked immediate only when the random draw is odd; on an even draw it
reaches the pool-index computation with a zero divisor (modelled none)
instead of writing an immediate. -/
theorem dylan_write_empty_pool (tvwAddr : Nat) (obj : List Nat) (r1 r2 : Nat)
    (hh : obj.getD 0 0 = tvwAddr) (ht : 0 < obj.getD 1 0 >>> 2) :
    ((r1 % wordMod) &&& 1 ≠ 0 → dylan_write tvwAddr obj [] r1 r2 =
      some (obj.set (2 + (r2 % wordMod) % (obj.getD 1 0 >>> 2))
        (((r1 % wordMod) &&& NOT3) ||| 1))) ∧
    ((r1 % wordMod) &&& 1 = 0 → dylan_write tvwAddr obj [] r1 r2 = none) := by
  constructor
  · intro hodd
    unfold dylan_write
    rw [if_pos ⟨hh, ht⟩]
    dsimp only
    rw [if_pos hodd]
  · intro heven
    unfold dylan_write
    rw [if_pos ⟨hh, ht⟩]
    dsimp only
    rw [if_neg (by simp [heven])]
    simp

/-- Witness for the amended C2 at an odd draw (r1 = 3) and at the same
instantiation's even-draw clause (vacuously, since 3 is odd). -/
theorem dylan_write_empty_pool_wit :
    ((3 % wordMod) &&& 1 ≠ 0 → dylan_write 100 [100, 9, 7, 7] [] 3 0 =
      some (([100, 9, 7, 7] : List Nat).set
        (2 + (0 % wordMod) % (([100, 9, 7, 7] : List Nat).getD 1 0 >>> 2))
        (((3 % wordMod) &&& NOT3) ||| 1))) ∧
    ((3 % wordMod) &&& 1 = 0 → dylan_write 100 [100, 9, 7, 7] [] 3 0 =
      none) :=
  dylan_write_empty_pool 100 [100, 9, 7, 7] 3 0 (by decide) (by decide)

/-- An in-range optional lookup is the defaulted lookup. -/
theorem getElem?_eq_some_getD (l : List Nat) (i : Nat) (h : i < l.length) :
    l[i]? = some (l.getD i 0) := by
  rw [List.getD_eq_getElem?_getD, List.getElem?_eq_getElem h]
  rfl

/-- Claim C9: dylan_read returns the raw word of one of the vector's slots
(the one at the random index) when the object's header is the vector
wrapper and the decoded length is positive, and returns the object's own
address otherwise; the C function performs no store, so the object is
unmodified. -/
theorem dylan_read_spec (tvwAddr addr : Nat) (obj : List Nat) (r : Nat)
    (hlen : obj.length = 2 + (obj.getD 1 0 >>> 2)) :
    (obj.getD 0 0 = tvwAddr → 0 < obj.getD 1 0 >>> 2 →
      dylan_read tvwAddr addr obj r =
        obj.getD (2 + (r % wordMod) % (obj.getD 1 0 >>> 2)) 0 ∧
      dylan_read tvwAddr addr obj r ∈ obj.drop 2) ∧
    ((obj.getD 0 0 ≠ tvwAddr ∨ obj.getD 1 0 >>> 2 = 0) →
      dylan_read tvwAddr addr obj r = addr) := by
  constructor
  · intro hh ht
    have hres : dylan_read tvwAddr addr obj r =
        obj.getD (2 + (r % wordMod) % (obj.getD 1 0 >>> 2)) 0 := by
      unfold dylan_read
      rw [if_pos hh, if_pos ht]
    refine ⟨hres, ?_⟩
    have hk : (r % wordMod) % (obj.getD 1 0 >>> 2) < obj.getD 1 0 >>> 2 :=
      Nat.mod_lt _ ht
    have hlt : 2 + (r % wordMod) % (obj.getD 1 0 >>> 2) < obj.length := by
      omega
    have hsome : obj[2 + (r % wordMod) % (obj.getD 1 0 >>> 2)]? =
        some (obj.getD (2 + (r % wordMod) % (obj.getD 1 0 >>> 2)) 0) :=
      getElem?_eq_some_getD obj _ hlt
    rw [hres]
    exact List.getElem?_mem (by rw [List.getElem?_drop]; exact hsome)
  · intro hcase
    unfold dylan_read
    rcases hcase with hne | hz
    · rw [if_neg hne]
    · by_cases hh : obj.getD 0 0 = tvwAddr
      · rw [if_pos hh, if_neg (by omega)]
      · rw [if_neg hh]

/-- Witness for C9: a two-slot vector read at an in-range random index, and
the identity fallback on a non-vector object. -/
theorem dylan_read_spec_wit :
    (([100, 9, 7, 8] : List Nat).getD 0 0 = 100 →
      0 < ([100, 9, 7, 8] : List Nat).getD 1 0 >>> 2 →
      dylan_read 100 40 [100, 9, 7, 8] 3 =
        ([100, 9, 7, 8] : List Nat).getD
          (2 + (3 % wordMod) % (([100, 9, 7, 8] : List Nat).getD 1 0 >>> 2))
          0 ∧
      dylan_read 100 40 [100, 9, 7, 8] 3 ∈
        ([100, 9, 7, 8] : List Nat).drop 2) ∧
    ((([100, 9, 7, 8] : List Nat).getD 0 0 ≠ 100 ∨
        ([100, 9, 7, 8] : List Nat).getD 1 0 >>> 2 = 0) →
      dylan_read 100 40 [100, 9, 7, 8] 3 = 40) :=
  dylan_read_spec 100 40 [100, 9, 7, 8] 3 (by decide)

/-- Writing one slot leaves every other defaulted lookup unchanged. -/
theorem getD_set_ne (l : List Nat) (i j v : Nat) (h : i ≠ j) :
    (l.set i v).getD j 0 = l.getD j 0 := by
  rw [List.getD_eq_getElem?_getD, List.getD_eq_getElem?_getD,
    List.getElem?_set_ne h]

/-- Writing one in-range slot makes its defaulted lookup the new value. -/
theorem getD_set_self (l : List Nat) (i v : Nat) (h : i < l.length) :
    (l.set i v).getD i 0 = v := by
  rw [List.getD_eq_getElem?_getD, List.getElem?_set_self h]
  rfl

/-- Defaulted lookup into the slot region is lookup past the two header
words. -/
theorem getD_drop_two (l : List Nat) (k : Nat) :
    (l.drop 2).getD k 0 = l.getD (2 + k) 0 := by
  rw [List.getD_eq_getElem?_getD, List.getD_eq_getElem?_getD,
    List.getElem?_drop]

/-- Claim C6: on a well-formed vector object dylan_mutate leaves the
multiset of slot values unchanged; when the two random indices differ the
result is exactly the transposition of those two slots; and on a
non-vector header or slot count zero it is a no-op. -/
theorem dylan_mutate_perm (tvwAddr : Nat) (obj : List Nat) (r1 r2 : Nat)
    (hlen : obj.length = 2 + (obj.getD 1 0 >>> 2)) :
    List.Perm ((dylan_mutate tvwAddr obj r1 r2).drop 2) (obj.drop 2) ∧
    (obj.getD 0 0 = tvwAddr → 0 < obj.getD 1 0 >>> 2 →
      (r1 % wordMod) % (obj.getD 1 0 >>> 2) ≠
        (r2 % wordMod) % (obj.getD 1 0 >>> 2) →
      (dylan_mutate tvwAddr obj r1 r2).getD
          (2 + (r1 % wordMod) % (obj.getD 1 0 >>> 2)) 0 =
        obj.getD (2 + (r2 % wordMod) % (obj.getD 1 0 >>> 2)) 0 ∧
      (dylan_mutate tvwAddr obj r1 r2).getD
          (2 + (r2 % wordMod) % (obj.getD 1 0 >>> 2)) 0 =
        obj.getD (2 + (r1 % wordMod) % (obj.getD 1 0 >>> 2)) 0 ∧
      ∀ k, k ≠ 2 + (r1 % wordMod) % (obj.getD 1 0 >>> 2) →
        k ≠ 2 + (r2 % wordMod) % (obj.getD 1 0 >>> 2) →
        (dylan_mutate tvwAddr obj r1 r2).getD k 0 = obj.getD k 0) ∧
    ((obj.getD 0 0 ≠ tvwAddr ∨ obj.getD 1 0 >>> 2 = 0) →
      dylan_mutate tvwAddr obj r1 r2 = obj) := by
  by_cases hh : obj.getD 0 0 = tvwAddr
  · by_cases ht : 0 < obj.getD 1 0 >>> 2
    · have hki : (r1 % wordMod) % (obj.getD 1 0 >>> 2) <
          obj.getD 1 0 >>> 2 := Nat.mod_lt _ ht
      have hkj : (r2 % wordMod) % (obj.getD 1 0 >>> 2) <
          obj.getD 1 0 >>> 2 := Nat.mod_lt _ ht
      have hmut : dylan_mutate tvwAddr obj r1 r2 =
          (obj.set (2 + (r1 % wordMod) % (obj.getD 1 0 >>> 2))
            (obj.getD (2 + (r2 % wordMod) % (obj.getD 1 0 >>> 2)) 0)).set
            (2 + (r2 % wordMod) % (obj.getD 1 0 >>> 2))
            (obj.getD (2 + (r1 % wordMod) % (obj.getD 1 0 >>> 2)) 0) := by
        unfold dylan_mutate
        rw [if_pos hh, if_pos ht]
      refine ⟨?_, ?_, ?_⟩
      · rw [hmut, List.drop_set, if_neg (by omega), List.drop_set,
          if_neg (by omega), Nat.add_sub_cancel_left, Nat.add_sub_cancel_left,
          ← getD_drop_two obj ((r2 % wordMod) % (obj.getD 1 0 >>> 2)),
          ← getD_drop_two obj ((r1 % wordMod) % (obj.getD 1 0 >>> 2))]
        exact set_set_swap_perm (obj.drop 2) _ _
          (by rw [List.length_drop]; omega) (by rw [List.length_drop]; omega)
      · intro _ _ hne
        refine ⟨?_, ?_, ?_⟩
        · rw [hmut, getD_set_ne _ _ _ _ (by omega),
            getD_set_self _ _ _ (by omega)]
        · rw [hmut, getD_set_self _ _ _ (by rw [List.length_set]; omega)]
        · intro k hk1 hk2
          rw [hmut, getD_set_ne _ _ _ _ (by omega),
            getD_set_ne _ _ _ _ (by omega)]
      · intro hcase
        rcases hcase with hne | hz
        · exact absurd hh hne
        · exact absurd ht (by omega)
    · have hmut : dylan_mutate tvwAddr obj r1 r2 = obj := by
        unfold dylan_mutate
        rw [if_pos hh, if_neg ht]
      exact ⟨by rw [hmut], fun _ ht2 _ => absurd ht2 ht, fun _ => hmut⟩
  · have hmut : dylan_mutate tvwAddr obj r1 r2 = obj := by
      unfold dylan_mutate
      rw [if_neg hh]
    exact ⟨by rw [hmut], fun hh2 _ _ => absurd hh2 hh, fun _ => hmut⟩

/-- Witness for C6: swapping the two (distinct-index) slots of a two-slot
vector. -/
theorem dylan_mutate_perm_wit :
    List.Perm ((dylan_mutate 100 [100, 9, 7, 8] 0 1).drop 2)
      (([100, 9, 7, 8] : List Nat).drop 2) ∧
    (([100, 9, 7, 8] : List Nat).getD 0 0 = 100 →
      0 < ([100, 9, 7, 8] : List Nat).getD 1 0 >>> 2 →
      (0 % wordMod) % (([100, 9, 7, 8] : List Nat).getD 1 0 >>> 2) ≠
        (1 % wordMod) % (([100, 9, 7, 8] : List Nat).getD 1 0 >>> 2) →
      (dylan_mutate 100 [100, 9, 7, 8] 0 1).getD
          (2 + (0 % wordMod) %
            (([100, 9, 7, 8] : List Nat).getD 1 0 >>> 2)) 0 =
        ([100, 9, 7, 8] : List Nat).getD
          (2 + (1 % wordMod) %
            (([100, 9, 7, 8] : List Nat).getD 1 0 >>> 2)) 0 ∧
      (dylan_mutate 100 [100, 9, 7, 8] 0 1).getD
          (2 + (1 % wordMod) %
            (([100, 9, 7, 8] : List Nat).getD 1 0 >>> 2)) 0 =
        ([100, 9, 7, 8] : List Nat).getD
          (2 + (0 % wordMod) %
            (([100, 9, 7, 8] : List Nat).getD 1 0 >>> 2)) 0 ∧
      ∀ k, k ≠ 2 + (0 % wordMod) %
            (([100, 9, 7, 8] : List Nat).getD 1 0 >>> 2) →
        k ≠ 2 + (1 % wordMod) %
            (([100, 9, 7, 8] : List Nat).getD 1 0 >>> 2) →
        (dylan_mutate 100 [100, 9, 7, 8] 0 1).getD k 0 =
          ([100, 9, 7, 8] : List Nat).getD k 0) ∧
    ((([100, 9, 7, 8] : List Nat).getD 0 0 ≠ 100 ∨
        ([100, 9, 7, 8] : List Nat).getD 1 0 >>> 2 = 0) →
      dylan_mutate 100 [100, 9, 7, 8] 0 1 = [100, 9, 7, 8]) :=
  dylan_mutate_perm 100 [100, 9, 7, 8] 0 1 (by decide)

/-- Claim C10: the mutators dylan_write and dylan_mutate touch only slot
words (indices two and above): the header's wrapper pointer (word 0) and
tagged length (word 1) survive every call, so the object's recognized type
and slot count are preserved. -/
theorem dylan_write_mutate_frame (tvwAddr : Nat) (obj refs : List Nat)
    (r1 r2 : Nat) :
    (∀ obj2, dylan_write tvwAddr obj refs r1 r2 = some obj2 →
      obj2.getD 0 0 = obj.getD 0 0 ∧ obj2.getD 1 0 = obj.getD 1 0) ∧
    (dylan_mutate tvwAddr obj r1 r2).getD 0 0 = obj.getD 0 0 ∧
    (dylan_mutate tvwAddr obj r1 r2).getD 1 0 = obj.getD 1 0 := by
  constructor
  · intro obj2 h
    unfold dylan_write at h
    by_cases hc : obj.getD 0 0 = tvwAddr ∧ 0 < obj.getD 1 0 >>> 2
    · rw [if_pos hc] at h
      dsimp only at h
      by_cases hodd : (r1 % wordMod) &&& 1 ≠ 0
      · rw [if_pos hodd] at h
        injection h with h2
        subst h2
        exact ⟨getD_set_ne _ _ _ _ (by omega), getD_set_ne _ _ _ _ (by omega)⟩
      · rw [if_neg hodd] at h
        rcases href : refs[((r1 % wordMod) >>> 1) % refs.length]? with _ | v
        · rw [href] at h
          cases h
        · rw [href] at h
          injection h with h2
          subst h2
          exact ⟨getD_set_ne _ _ _ _ (by omega), getD_set_ne _ _ _ _ (by omega)⟩
    · rw [if_neg hc] at h
      injection h with h2
      subst h2
      exact ⟨rfl, rfl⟩
  · unfold dylan_mutate
    by_cases hh : obj.getD 0 0 = tvwAddr
    · rw [if_pos hh]
      by_cases ht : 0 < obj.getD 1 0 >>> 2
      · rw [if_pos ht]
        dsimp only
        exact ⟨by rw [getD_set_ne _ _ _ _ (by omega),
            getD_set_ne _ _ _ _ (by omega)],
          by rw [getD_set_ne _ _ _ _ (by omega),
            getD_set_ne _ _ _ _ (by omega)]⟩
      · rw [if_neg ht]
        exact ⟨rfl, rfl⟩
    · rw [if_neg hh]
      exact ⟨rfl, rfl⟩

/-- Witness for C10: an odd-draw write into slot 0 and a swap of the two
slots both keep the header words 100 and 9. -/
theorem dylan_write_mutate_frame_wit :
    (([100, 9, 1, 7] : List Nat).getD 0 0 =
      ([100, 9, 7, 7] : List Nat).getD 0 0 ∧
     ([100, 9, 1, 7] : List Nat).getD 1 0 =
      ([100, 9, 7, 7] : List Nat).getD 1 0) ∧
    (dylan_mutate 100 [100, 9, 7, 7] 3 0).getD 0 0 =
      ([100, 9, 7, 7] : List Nat).getD 0 0 ∧
    (dylan_mutate 100 [100, 9, 7, 7] 3 0).getD 1 0 =
      ([100, 9, 7, 7] : List Nat).getD 1 0 :=
  ⟨(dylan_write_mutate_frame 100 [100, 9, 7, 7] [55] 3 0).1 [100, 9, 1, 7]
      (by decide),
   (dylan_write_mutate_frame 100 [100, 9, 7, 7] [55] 3 0).2⟩
